import Mathlib

/-!
# onemillionnft_img: the pixel-painting worker pool of `main.go`

A shallow embedding of `src/main.go` and the properties proved about it.

* Go `int` is `Int` wrapped to 64 bits where the source adds; `uint32` colour
  channels are `Nat`.
* A Go `error` is its message (`String`); `nil` is `none`.
* The collaborators that live outside the repository (HTTP client, JSON and
  base64 decoding, the Solana transaction library and RPC client) are the
  fields of `Extern`; every call made through them is appended to the
  `trace` of the `ImageFill` value, together with the log lines.
* The goroutines of `main` and `Worker.Run` are a labelled transition
  system (`Pool.step`) over the channel buffer and the `WaitGroup` counter.
-/

namespace OneMillion

/-! ## Colours and `rgbaToHex` -/

/-- The value of a `color.Color`: the four `uint32` results of its `RGBA()` method. -/
structure Color where
  r : Nat
  g : Nat
  b : Nat
  a : Nat
deriving DecidableEq, Repr

/-- The digit table used by `fmt` for the verb `%X`. -/
def udigits : List Char := "0123456789ABCDEF".data

/-- Digits of `u` in base 16, most significant first, as `fmt` writes them for `%X`:
the low digit is emitted while `u >= 16`, then the last digit. -/
def fmtHexCore : Nat → Nat → List Char → List Char
  | 0, _, acc => acc
  | fuel + 1, u, acc =>
    if u < 16 then udigits.getD u '0' :: acc
    else fmtHexCore fuel (u >>> 4) (udigits.getD (u % 16) '0' :: acc)

/-- Upper-case hexadecimal digits of `u` (verb `%X`, no width). -/
def fmtHex (u : Nat) : List Char := fmtHexCore (u + 1) u []

/-- The verb `%02X` of `fmt.Sprintf`: upper-case hexadecimal, padded on the left
with zeros to a width of at least two. -/
def fmt02X (u : Nat) : String :=
  let ds := fmtHex u
  String.mk (List.replicate (2 - ds.length) '0' ++ ds)

/-- Embedding of `ImageFill.rgbaToHex`:
`r, g, b, _ := c.RGBA(); fmt.Sprintf("%02X%02X%02X", r>>8, g>>8, b>>8)`. -/
def rgbaToHex (c : Color) : String :=
  fmt02X (c.r >>> 8) ++ fmt02X (c.g >>> 8) ++ fmt02X (c.b >>> 8)

/-- Specification side: the upper-case hexadecimal digit of a value below 16. -/
def hexChar : Nat → Char
  | 0 => '0' | 1 => '1' | 2 => '2' | 3 => '3' | 4 => '4' | 5 => '5' | 6 => '6' | 7 => '7'
  | 8 => '8' | 9 => '9' | 10 => 'A' | 11 => 'B' | 12 => 'C' | 13 => 'D' | 14 => 'E' | _ => 'F'

/-- Specification side: the two-digit zero-padded upper-case hexadecimal of a byte. -/
def hexByte (n : Nat) : List Char := [hexChar (n / 16), hexChar (n % 16)]

/-- Specification side: a character is one of `0-9` or `A-F`. -/
def isUpperHexChar (ch : Char) : Bool :=
  ('0' ≤ ch && ch ≤ '9') || ('A' ≤ ch && ch ≤ 'F')

/-- Specification side: the value of an upper-case hexadecimal digit. -/
def hexVal (ch : Char) : Option Nat :=
  if '0' ≤ ch && ch ≤ '9' then some (ch.toNat - 48)
  else if 'A' ≤ ch && ch ≤ 'F' then some (ch.toNat - 55)
  else none

/-- Specification side: parse two hexadecimal digits as a byte. -/
def parseHexByte (hi lo : Char) : Option Nat :=
  match hexVal hi, hexVal lo with
  | some h, some l => some (16 * h + l)
  | _, _ => none

/-- Specification side: parse a six-digit `RRGGBB` string into its three bytes. -/
def parseHexRGB (s : String) : Option (Nat × Nat × Nat) :=
  match s.data with
  | [r1, r0, g1, g0, b1, b0] =>
    match parseHexByte r1 r0, parseHexByte g1 g0, parseHexByte b1 b0 with
    | some r, some g, some b => some (r, g, b)
    | _, _, _ => none
  | _ => none

/-- The `RGBA()` value of an opaque colour given in 8-bit channel depth
(`color.RGBA` with `A = 255`, or `color.NRGBA`): every channel `v` expands to `v * 257`
(`v | v << 8`). -/
def Color.ofRGB8 (R G B : Nat) : Color :=
  { r := R * 257, g := G * 257, b := B * 257, a := 255 * 257 }

/-- Specification side: pure white, all three 16-bit colour channels equal to `0xFFFF`. -/
def Color.isPureWhite (c : Color) : Prop :=
  c.r = 0xFFFF ∧ c.g = 0xFFFF ∧ c.b = 0xFFFF

instance (c : Color) : Decidable c.isPureWhite := by
  unfold Color.isPureWhite; infer_instance

/-! ## Data model -/

/-- A Go `error`, identified with the text of its `Error()` method. -/
abbrev Error := String

/-- Go `int` arithmetic: the result of an addition wraps to 64 bits, two's complement. -/
def wrapInt (n : Int) : Int := (n + 2 ^ 63) % 2 ^ 64 - 2 ^ 63

/-- Embedding of `type TxnResponse struct`. -/
structure TxnResponse where
  Transaction : String
  Message : String
deriving DecidableEq, Repr

/-- Embedding of `type Job struct`. -/
structure Job where
  x : Int
  y : Int
  c : Color
deriving DecidableEq, Repr

/-- A `solana.Signature`, an array of 64 bytes. -/
def Signature : Type := { l : List (Fin 256) // l.length = 64 }

instance : DecidableEq Signature :=
  inferInstanceAs (DecidableEq { l : List (Fin 256) // l.length = 64 })

/-- The zero value `solana.Signature{}`: 64 zero bytes, the empty placeholder slot. -/
def Signature.zero : Signature := ⟨List.replicate 64 0, rfl⟩

/-- A signature whose 64 bytes all equal `v`. -/
def Signature.fill (v : Fin 256) : Signature := ⟨List.replicate 64 v, rfl⟩

/-- The method `Signature.Equals`: byte-wise equality. -/
def Signature.Equals (s t : Signature) : Bool := decide (s = t)

/-- A `solana.PublicKey` (its bytes). -/
abbrev PublicKey := List Nat

/-- A `solana.PrivateKey` (its bytes). -/
abbrev PrivateKey := List Nat

/-- The signing identity, `solana.Wallet`. -/
structure Wallet where
  PublicKey : PublicKey
  PrivateKey : PrivateKey
deriving DecidableEq

/-- A `solana.Transaction`: the signature list and the serialised message. -/
structure Transaction where
  Signatures : List Signature
  Message : List Nat
deriving DecidableEq

/-- An `http.Response` as far as `main.go` reads it; `Body` is the result of
`ioutil.ReadAll(resp.Body)`. -/
structure Response where
  StatusCode : Int
  Status : String
  Body : Except Error String

/-- One interaction with the outside world. -/
inductive Event where
  /-- A line written by `log.Printf` or `log.Println`. -/
  | log (line : String)
  /-- A request through `client.Get`. -/
  | get (uri : String)
  /-- The base64 decoding of the artifact, the first statement of `sendTxn`. -/
  | decode (tx : String)
  /-- The call of `solana.TransactionFromDecoder`. -/
  | deserialize (data : List Nat)
  /-- The call of `PartialSign`. -/
  | sign (txn : Transaction)
  /-- The call of `rpc.SendTransactionWithOpts`. -/
  | send (txn : Transaction) (skipPreflight : Bool) (maxRetries : Nat)
deriving DecidableEq

/-- The collaborators outside the repository. Network answers may depend on everything
that happened before, so they take the trace of earlier events. -/
structure Extern where
  /-- The call `http.Client.Get`. -/
  Get : List Event → String → Except Error Response
  /-- The call `json.Unmarshal` into a `TxnResponse`. -/
  Unmarshal : String → Except Error TxnResponse
  /-- The call `base64.StdEncoding.DecodeString`. -/
  DecodeString : String → Except Error (List Nat)
  /-- The call `solana.TransactionFromDecoder(bin.NewBorshDecoder(data))`. -/
  TransactionFromDecoder : List Nat → Except Error Transaction
  /-- The call `Transaction.PartialSign` with a key getter. -/
  PartialSign : Transaction → (PublicKey → Option PrivateKey) → Except Error Transaction
  /-- The call `rpc.Client.SendTransactionWithOpts`. -/
  SendTransactionWithOpts : List Event → Transaction → Bool → Nat → Except Error Signature
  /-- The textual form of a public key (verb `%s`). -/
  pubkeyString : PublicKey → String
  /-- The textual form of a signature (verb `%s`). -/
  sigString : Signature → String

/-- Embedding of `type ImageFill struct`. The fields `rpc` and `client` are handles to the
outside world; `trace` records what was sent through them and to the logger. The channel
`jobs` is the `jobs` field of `Pool`. -/
structure ImageFill where
  wallet : Wallet
  startX : Int
  startY : Int
  wg : Int
  successCalls : List String
  trace : List Event

/-- Append an event to the trace. -/
def ImageFill.emit (i : ImageFill) (e : Event) : ImageFill :=
  { i with trace := i.trace ++ [e] }

/-- The URIs requested through `client.Get`, in order. -/
def getsOf : List Event → List String
  | [] => []
  | Event.get uri :: rest => uri :: getsOf rest
  | _ :: rest => getsOf rest

/-- The arguments of the calls of `sendTxn`, in order: every call starts by decoding its
argument. -/
def sendTxnCalls : List Event → List String
  | [] => []
  | Event.decode tx :: rest => tx :: sendTxnCalls rest
  | _ :: rest => sendTxnCalls rest

/-- The transactions submitted through `rpc.SendTransactionWithOpts`, in order. -/
def sendsOf : List Event → List Transaction
  | [] => []
  | Event.send txn _ _ :: rest => txn :: sendsOf rest
  | _ :: rest => sendsOf rest

/-! ## The paint pipeline -/

/-- The request URI built in `getTxn`. -/
def mintUri (E : Extern) (i : ImageFill) (x y : Int) (color : Color) : String :=
  "https://www.onemillionnfts.page/api/mint?x=" ++ toString x ++ "&y=" ++ toString y
    ++ "&color=%23" ++ rgbaToHex color ++ "&pubkey=" ++ E.pubkeyString i.wallet.PublicKey

/-- The request URI built in `checkSuccess`. -/
def successUri (E : Extern) (i : ImageFill) (x y : Int) (color : Color) (sig : Signature) :
    String :=
  "https://www.onemillionnfts.page/api/success?x=" ++ toString x ++ "&y=" ++ toString y
    ++ "&color=%23" ++ rgbaToHex color ++ "&transaction=" ++ E.sigString sig
    ++ "&pubkey=" ++ E.pubkeyString i.wallet.PublicKey

/-- Embedding of `ImageFill.getTxn`. -/
def getTxn (E : Extern) (i : ImageFill) (x y : Int) (color : Color) :
    (String × Option Error) × ImageFill :=
  let i := i.emit (Event.log
    ("Painting: " ++ toString x ++ "," ++ toString y ++ " - #" ++ rgbaToHex color))
  let uri := mintUri E i x y color
  let resp := E.Get i.trace uri
  let i := i.emit (Event.get uri)
  match resp with
  | .error err => (("", some err), i)
  | .ok resp =>
    if resp.StatusCode = 400 then (("", some "already painted"), i)
    else if resp.StatusCode ≠ 200 then
      (("", some ("get txn failed: " ++ toString resp.StatusCode ++ " - " ++ resp.Status)),
        i.emit (Event.log uri))
    else
      match resp.Body with
      | .error err => (("", some err), i)
      | .ok data =>
        match E.Unmarshal data with
        | .error err => (("", some err), i)
        | .ok r => ((r.Transaction, none), i)

/-- The answer to the artifact request that `paint` issues for the job `(x, y, color)`
in state `i`. -/
def artifactAnswer (E : Extern) (i : ImageFill) (x y : Int) (color : Color) :
    Except Error Response :=
  let X := wrapInt (i.startX + x)
  let Y := wrapInt (i.startY + y)
  E.Get
    (i.trace ++ [Event.log
      ("Painting: " ++ toString X ++ "," ++ toString Y ++ " - #" ++ rgbaToHex color)])
    (mintUri E i X Y color)

/-- The key getter passed to `PartialSign` in `sendTxn`. -/
def signerFor (w : Wallet) (key : PublicKey) : Option PrivateKey :=
  if key = w.PublicKey then some w.PrivateKey else none

/-- The loop of `sendTxn` over `txn.Signatures`: an empty signature is skipped,
any other is put in front of the list built so far. -/
def sigLoop (sigs : List Signature) : List Signature :=
  sigs.foldl (fun acc s => if s.Equals Signature.zero then acc else [s] ++ acc) []

/-- Embedding of `ImageFill.sendTxn`. -/
def sendTxn (E : Extern) (i : ImageFill) (tx : String) :
    (Signature × Option Error) × ImageFill :=
  let i := i.emit (Event.decode tx)
  match E.DecodeString tx with
  | .error err => ((Signature.zero, some err), i)
  | .ok data =>
    let i := i.emit (Event.deserialize data)
    match E.TransactionFromDecoder data with
    | .error err => ((Signature.zero, some err), i)
    | .ok txn =>
      let i := i.emit (Event.sign txn)
      match E.PartialSign txn (signerFor i.wallet) with
      | .error err => ((Signature.zero, some err), i)
      | .ok txn =>
        let txn := { txn with Signatures := sigLoop txn.Signatures }
        let retries := 3
        let res := E.SendTransactionWithOpts i.trace txn true retries
        let i := i.emit (Event.send txn true retries)
        match res with
        | .error err => ((Signature.zero, some err), i.emit (Event.log ("Txn error: " ++ err)))
        | .ok sig => ((sig, none), i)

/-- Embedding of `ImageFill.doSuccessCheck`. -/
def doSuccessCheck (E : Extern) (i : ImageFill) (uri : String) : Option Error × ImageFill :=
  let i := i.emit (Event.log uri)
  let resp := E.Get i.trace uri
  let i := i.emit (Event.get uri)
  match resp with
  | .error err => (some err, i)
  | .ok resp =>
    if resp.StatusCode ≠ 200 then
      (some ("check success failed: " ++ toString resp.StatusCode), i)
    else (none, i)

/-- Embedding of `ImageFill.checkSuccess`. -/
def checkSuccess (E : Extern) (i : ImageFill) (x y : Int) (color : Color) (sig : Signature) :
    Option Error × ImageFill :=
  let uri := successUri E i x y color sig
  let i := { i with successCalls := i.successCalls ++ [uri] }
  doSuccessCheck E i uri

/-- Two consecutive `return` statements: the first one ends the function, the second
one is never executed. -/
def returnThen {ρ : Type} (first _second : ImageFill → ρ × ImageFill) (i : ImageFill) :
    ρ × ImageFill :=
  first i

/-- Embedding of `ImageFill.paint`. The body ends with `return nil` followed by
`return i.checkSuccess(...)`. -/
def paint (E : Extern) (i : ImageFill) (x y : Int) (color : Color) :
    Option Error × ImageFill :=
  match getTxn E i (wrapInt (i.startX + x)) (wrapInt (i.startY + y)) color with
  | ((_, some err), i) => (some err, i)
  | ((tx, none), i) =>
    if tx = "" then (some "invalid txn data", i)
    else
      match sendTxn E i tx with
      | ((_, some err), i) => (some err, i)
      | ((sig, none), i) =>
        returnThen
          (fun i => (none, i))
          (fun i => checkSuccess E i (wrapInt (i.startX + x)) (wrapInt (i.startY + y)) color sig)
          i

/-- The method `WaitGroup.Done`: the counter goes down by one; a counter that would
become negative is a panic (`none`). -/
def wgDone (i : ImageFill) : Option ImageFill :=
  if i.wg - 1 < 0 then none else some { i with wg := i.wg - 1 }

/-- Embedding of `Worker.Run` for one worker: `delivered` are the jobs that the
`range` over the channel hands to this worker before the channel is closed and empty.
The result is `none` when `wg.Done` panics. -/
def Worker.Run (E : Extern) (i : ImageFill) : List Job → Option ImageFill
  | [] => some i
  | job :: rest =>
    match paint E i job.x job.y job.c with
    | (err, i) =>
      let i := match err with
        | some err => i.emit (Event.log ("Failed paint: "
            ++ toString (wrapInt (i.startX + job.x)) ++ ","
            ++ toString (wrapInt (i.startY + job.y)) ++ ": " ++ err))
        | none => i
      match wgDone i with
      | none => none
      | some i => Worker.Run E i rest

/-! ## The dispatcher loop of `main` -/

/-- A decoded `image.Image`: its `Bounds()` and its `At` method. -/
structure Image where
  minX : Int
  minY : Int
  maxX : Int
  maxY : Int
  At : Int → Int → Color

/-- The values taken by `v` in `for v := lo; v < hi; v++`. -/
def intRange (lo hi : Int) : List Int :=
  (List.range (hi - lo).toNat).map (fun (k : Nat) => lo + (k : Int))

/-- The test `skipWhitespace && imgFill.rgbaToHex(c) == "FFFFFF"` of the loop body. -/
def skipped (skipWhitespace : Bool) (c : Color) : Bool :=
  skipWhitespace && decide (rgbaToHex c = "FFFFFF")

/-- The inner loop of `main` over `x` for a fixed row `y`; `sent` are the jobs sent on
the channel so far (each send is preceded by `wg.Add(1)`). -/
def rowLoop (skipWhitespace : Bool) (img : Image) (y : Int) (sent : List Job) : List Job :=
  (intRange img.minX img.maxX).foldl
    (fun sent x =>
      let c := img.At x y
      if skipped skipWhitespace c then sent else sent ++ [{ x := x, y := y, c := c }])
    sent

/-- The dispatcher loop of `main`: the jobs sent on the channel, in order. -/
def mainLoop (skipWhitespace : Bool) (img : Image) : List Job :=
  (intRange img.minY img.maxY).foldl (fun sent y => rowLoop skipWhitespace img y sent) []

/-- The pixels visited by the two nested loops, in raster order. -/
def pixels (img : Image) : List Job :=
  (intRange img.minY img.maxY).flatMap fun y =>
    (intRange img.minX img.maxX).map fun x => { x := x, y := y, c := img.At x y }

/-- The coordinate lies inside the bounds of the image. -/
def Image.InBounds (img : Image) (x y : Int) : Prop :=
  img.minX ≤ x ∧ x < img.maxX ∧ img.minY ≤ y ∧ y < img.maxY

instance (img : Image) (x y : Int) : Decidable (img.InBounds x y) := by
  unfold Image.InBounds; infer_instance

/-! ## The goroutines: dispatcher, channel, `WaitGroup`, workers -/

/-- Where the goroutine of `main` stands. -/
inductive MainPC where
  /-- At the head of the loop body, or past the loops and before `close`. -/
  | loop
  /-- After `wg.Add(1)`, at the send of the job on the channel. -/
  | send (j : Job)
  /-- After `close(imgFill.jobs)`, inside `wg.Wait()`. -/
  | wait
  /-- The call `wg.Wait()` has returned. -/
  | done
deriving DecidableEq

/-- Where a goroutine running `Worker.Run` stands. -/
inductive WorkerPC where
  /-- At the receive of `range imgFill.jobs`. -/
  | recv
  /-- Between the receive of the job and the call `wg.Done()`. -/
  | paint (j : Job)
  /-- The `range` loop has ended. -/
  | exit
deriving DecidableEq

/-- The state shared by the goroutines, with the history of sends, receives and
`wg.Done` calls. -/
structure Pool where
  skipWhitespace : Bool
  /-- Pixels the loops of `main` have not visited yet. -/
  todo : List Job
  main : MainPC
  /-- The buffer of the channel `imgFill.jobs`. -/
  jobs : List Job
  /-- The capacity of the channel. -/
  capacity : Nat
  /-- The channel has been closed. -/
  closed : Bool
  /-- The counter of `imgFill.wg`. -/
  wg : Int
  /-- A `WaitGroup` counter went negative. -/
  panicked : Bool
  workers : List WorkerPC
  /-- History: jobs sent on the channel, in order. -/
  sent : List Job
  /-- History: receives, as worker index and job, in order. -/
  received : List (Nat × Job)
  /-- History: calls of `wg.Done`, as worker index, job and result of `paint`. -/
  finished : List (Nat × Job × Option Error)
deriving DecidableEq

/-- One atomic step of one goroutine. -/
inductive Action where
  /-- The goroutine of `main` starts the next loop iteration: skip the pixel, or `wg.Add(1)`. -/
  | next
  /-- The send on the channel completes. -/
  | send
  /-- The call `close(imgFill.jobs)`. -/
  | close
  /-- The call `wg.Wait()` returns. -/
  | waitReturn
  /-- Worker `k` receives a job, or finds the channel closed and empty. -/
  | recv (k : Nat)
  /-- Worker `k`: `paint` returned `err`, then `wg.Done()`. -/
  | done (k : Nat) (err : Option Error)
deriving DecidableEq

/-- The state after `InitWorkerPool(numWorkers)`, before the loops of `main`;
the channel is `make(chan Job, 100)`. -/
def Pool.init (skipWhitespace : Bool) (img : Image) (numWorkers : Nat) : Pool :=
  { skipWhitespace := skipWhitespace
    todo := pixels img
    main := MainPC.loop
    jobs := []
    capacity := 100
    closed := false
    wg := 0
    panicked := false
    workers := List.replicate numWorkers WorkerPC.recv
    sent := []
    received := []
    finished := [] }

/-- The transition function: `none` when the action is not enabled. -/
def Pool.step (s : Pool) (a : Action) : Option Pool :=
  if s.panicked then none
  else
    match a with
    | Action.next =>
      match s.main, s.todo with
      | MainPC.loop, p :: rest =>
        if skipped s.skipWhitespace p.c then some { s with todo := rest }
        else some { s with todo := rest, wg := s.wg + 1, main := MainPC.send p }
      | _, _ => none
    | Action.send =>
      match s.main with
      | MainPC.send j =>
        if s.jobs.length < s.capacity then
          some { s with jobs := s.jobs ++ [j], sent := s.sent ++ [j], main := MainPC.loop }
        else none
      | _ => none
    | Action.close =>
      match s.main, s.todo with
      | MainPC.loop, [] => some { s with closed := true, main := MainPC.wait }
      | _, _ => none
    | Action.waitReturn =>
      match s.main with
      | MainPC.wait => if s.wg = 0 then some { s with main := MainPC.done } else none
      | _ => none
    | Action.recv k =>
      match s.workers.get? k with
      | some WorkerPC.recv =>
        match s.jobs with
        | j :: rest =>
          some { s with jobs := rest, workers := s.workers.set k (WorkerPC.paint j),
                        received := s.received ++ [(k, j)] }
        | [] => if s.closed then some { s with workers := s.workers.set k WorkerPC.exit } else none
      | _ => none
    | Action.done k err =>
      match s.workers.get? k with
      | some (WorkerPC.paint j) =>
        some { s with wg := s.wg - 1, panicked := decide (s.wg - 1 < 0),
                      workers := s.workers.set k WorkerPC.recv,
                      finished := s.finished ++ [(k, j, err)] }
      | _ => none

/-- Run a schedule of actions. -/
def Pool.run (s : Pool) : List Action → Option Pool
  | [] => some s
  | a :: rest =>
    match s.step a with
    | some t => t.run rest
    | none => none

/-- The states reachable from the initial state. -/
inductive Reachable (skipWhitespace : Bool) (img : Image) (numWorkers : Nat) : Pool → Prop where
  | init : Reachable skipWhitespace img numWorkers (Pool.init skipWhitespace img numWorkers)
  | step {s t : Pool} (a : Action) :
      Reachable skipWhitespace img numWorkers s → s.step a = some t →
      Reachable skipWhitespace img numWorkers t

/-- Jobs counted by `wg.Add(1)` and not yet sent. -/
def MainPC.awaiting : MainPC → List Job
  | MainPC.send j => [j]
  | _ => []

/-- The jobs in flight: worker index (starting at `base`) and job of every worker that
has received a job and not yet called `wg.Done`. -/
def inflightFrom (base : Nat) : List WorkerPC → List (Nat × Job)
  | [] => []
  | WorkerPC.paint j :: ws => (base, j) :: inflightFrom (base + 1) ws
  | _ :: ws => inflightFrom (base + 1) ws

/-- The jobs in flight in a pool state. -/
def Pool.inflight (s : Pool) : List (Nat × Job) := inflightFrom 0 s.workers

/-! ## Sample data -/

/-- A collaborator set whose artifact service always answers with the given status and
body, and whose ledger accepts every transaction. -/
def Extern.sample (status : Int) (body : String) (transaction : String) : Extern :=
  { Get := fun _ _ => .ok { StatusCode := status, Status := "status", Body := .ok body }
    Unmarshal := fun _ => .ok { Transaction := transaction, Message := "" }
    DecodeString := fun _ => .ok []
    TransactionFromDecoder := fun _ =>
      .ok { Signatures := [Signature.zero, Signature.fill 7], Message := [] }
    PartialSign := fun txn _ => .ok txn
    SendTransactionWithOpts := fun _ _ _ _ => .ok (Signature.fill 9)
    pubkeyString := fun _ => "PUBKEY"
    sigString := fun _ => "SIG" }

/-- A sample pipeline state with offset (5, 10). -/
def ImageFill.sample : ImageFill :=
  { wallet := { PublicKey := [1], PrivateKey := [2] }
    startX := 5, startY := 10, wg := 2, successCalls := [], trace := [] }

/-- The 2×1 image with pixels (black, white). -/
def Image.blackWhite : Image :=
  { minX := 0, minY := 0, maxX := 2, maxY := 1
    At := fun x _ => if x = 0 then Color.ofRGB8 0 0 0 else Color.ofRGB8 255 255 255 }

/-- A 1×1 image whose pixel has the 16-bit channels `0xFF00`, not pure white. -/
def Image.nearWhite : Image :=
  { minX := 0, minY := 0, maxX := 1, maxY := 1
    At := fun _ _ => { r := 0xFF00, g := 0xFF00, b := 0xFF00, a := 0xFFFF } }

/-- A schedule for `Image.blackWhite` with two workers: the black pixel is counted, sent,
received by worker 1 and finished with an error; the white pixel is skipped; the channel
is closed, worker 0 sees it closed and empty, and `wg.Wait()` returns. -/
def Action.sampleSchedule : List Action :=
  [Action.next, Action.send, Action.next, Action.recv 1, Action.close,
   Action.done 1 (some "already painted"), Action.recv 0, Action.waitReturn]

/-- The state reached by `Action.sampleSchedule`. -/
def Pool.sampleFinal : Pool :=
  ((Pool.init true Image.blackWhite 2).run Action.sampleSchedule).getD
    (Pool.init true Image.blackWhite 2)

/-- The invariant of the pool: the `WaitGroup` counter counts the jobs awaiting their
send, the jobs in the channel and the jobs in flight; the jobs sent are the jobs received
followed by the jobs still in the channel; the receives are the finished and the in-flight
jobs; the loop of `main` is at the position given by `todo`; the channel is closed only
after the last send. -/
def Pool.Inv (skip : Bool) (img : Image) (s : Pool) : Prop :=
  s.skipWhitespace = skip
  ∧ s.panicked = false
  ∧ s.wg = ((s.main.awaiting.length + s.jobs.length + s.inflight.length : Nat) : Int)
  ∧ s.sent = s.received.map Prod.snd ++ s.jobs
  ∧ (s.finished.map (fun f => (f.1, f.2.1)) ++ s.inflight).Perm s.received
  ∧ mainLoop skip img
      = s.sent ++ s.main.awaiting ++ s.todo.filter (fun j => !skipped skip j.c)
  ∧ (s.closed = true → s.todo = [] ∧ s.main.awaiting = [])

/-! # Theorems -/

/-! ## Colour encoding -/

theorem udigits_getD (d : Nat) (h : d < 16) : udigits.getD d '0' = hexChar d := by
  interval_cases d <;> rfl

theorem fmt02X_byte (n : Nat) (h : n < 256) : fmt02X n = String.mk (hexByte n) := by
  unfold fmt02X fmtHex hexByte
  by_cases h16 : n < 16
  · rw [fmtHexCore, if_pos h16, udigits_getD n h16, Nat.mod_eq_of_lt h16, Nat.div_eq_of_lt h16]
    rfl
  · obtain ⟨m, rfl⟩ : ∃ m, n = m + 1 := ⟨n - 1, by omega⟩
    have h3 : (m + 1) >>> 4 = (m + 1) / 16 := by rw [Nat.shiftRight_eq_div_pow]
    have h1 : (m + 1) / 16 < 16 := by omega
    have h2 : (m + 1) % 16 < 16 := Nat.mod_lt _ (by norm_num)
    rw [fmtHexCore, if_neg h16, h3, fmtHexCore, if_pos h1, udigits_getD _ h1, udigits_getD _ h2]
    rfl

theorem shiftRight8_lt (n : Nat) (h : n ≤ 65535) : n >>> 8 < 256 := by
  rw [Nat.shiftRight_eq_div_pow]; omega

theorem rgbaToHex_bytes (c : Color) (hr : c.r ≤ 65535) (hg : c.g ≤ 65535) (hb : c.b ≤ 65535) :
    rgbaToHex c
      = String.mk (hexByte (c.r >>> 8) ++ hexByte (c.g >>> 8) ++ hexByte (c.b >>> 8)) := by
  unfold rgbaToHex
  rw [fmt02X_byte _ (shiftRight8_lt _ hr), fmt02X_byte _ (shiftRight8_lt _ hg),
    fmt02X_byte _ (shiftRight8_lt _ hb)]
  rfl

theorem isUpperHexChar_hexChar (d : Nat) : isUpperHexChar (hexChar d) = true := by
  unfold hexChar
  split <;> decide

theorem hexVal_hexChar (d : Nat) (h : d < 16) : hexVal (hexChar d) = some d := by
  interval_cases d <;> rfl

theorem parseHexByte_hexByte (n : Nat) (h : n < 256) :
    parseHexByte (hexChar (n / 16)) (hexChar (n % 16)) = some n := by
  unfold parseHexByte
  rw [hexVal_hexChar _ (by omega), hexVal_hexChar _ (by omega)]
  simp only [Option.some.injEq]
  omega

theorem ofRGB8_shift (v : Nat) (h : v ≤ 255) : (v * 257) >>> 8 = v := by
  rw [Nat.shiftRight_eq_div_pow]; omega

/-- C4: for a colour whose `RGBA()` channels all lie in `0..65535`, `rgbaToHex` returns
exactly six characters, each one of `0-9A-F`, namely the two-digit zero-padded upper-case
hexadecimal of `r>>8`, `g>>8` and `b>>8` in this order; any colour with the same `r`, `g`
and `b` (whatever its alpha) yields the same string. -/
theorem rgbaToHex_spec (c : Color) (hr : c.r ≤ 65535) (hg : c.g ≤ 65535) (hb : c.b ≤ 65535)
    (_ha : c.a ≤ 65535) :
    (rgbaToHex c).length = 6
    ∧ (∀ ch ∈ (rgbaToHex c).data, isUpperHexChar ch = true)
    ∧ rgbaToHex c
        = String.mk (hexByte (c.r >>> 8) ++ hexByte (c.g >>> 8) ++ hexByte (c.b >>> 8))
    ∧ (∀ c' : Color, c'.r = c.r → c'.g = c.g → c'.b = c.b → rgbaToHex c' = rgbaToHex c) := by
  have hEq := rgbaToHex_bytes c hr hg hb
  refine ⟨?_, ?_, hEq, ?_⟩
  · rw [hEq]; rfl
  · rw [hEq]
    intro ch hch
    simp only [hexByte, List.cons_append, List.nil_append, List.mem_cons, List.mem_singleton,
      List.mem_nil_iff, or_false] at hch
    rcases hch with h | h | h | h | h | h <;> rw [h] <;> exact isUpperHexChar_hexChar _
  · intro c' h1 h2 h3
    unfold rgbaToHex
    rw [h1, h2, h3]

/-- Witness for C4 at the colour `(0xFFFF, 0x0A00, 0x1234, 0)`. -/
theorem rgbaToHex_spec_witness :
    rgbaToHex { r := 0xFFFF, g := 0x0A00, b := 0x1234, a := 0 } = "FF0A12"
    ∧ (rgbaToHex { r := 0xFFFF, g := 0x0A00, b := 0x1234, a := 0 }).length = 6 :=
  ⟨by decide,
    (rgbaToHex_spec { r := 0xFFFF, g := 0x0A00, b := 0x1234, a := 0 }
      (by decide) (by decide) (by decide) (by decide)).1⟩

/-- C5: for an opaque colour given in 8-bit channel depth (`R`, `G`, `B` in `0..255`, each
expanded to `v * 257` by `RGBA()`), `rgbaToHex` returns the two-digit upper-case hexadecimal
of `R`, `G` and `B`, and parsing the three hex bytes of the result gives back `(R, G, B)`. -/
theorem rgbaToHex_roundtrip (R G B : Nat) (hR : R ≤ 255) (hG : G ≤ 255) (hB : B ≤ 255) :
    rgbaToHex (Color.ofRGB8 R G B) = String.mk (hexByte R ++ hexByte G ++ hexByte B)
    ∧ parseHexRGB (rgbaToHex (Color.ofRGB8 R G B)) = some (R, G, B) := by
  have hEq : rgbaToHex (Color.ofRGB8 R G B)
      = String.mk (hexByte R ++ hexByte G ++ hexByte B) := by
    rw [rgbaToHex_bytes _ (by simp only [Color.ofRGB8]; omega)
      (by simp only [Color.ofRGB8]; omega) (by simp only [Color.ofRGB8]; omega)]
    simp only [Color.ofRGB8, ofRGB8_shift R hR, ofRGB8_shift G hG, ofRGB8_shift B hB]
  refine ⟨hEq, ?_⟩
  rw [hEq]
  simp only [parseHexRGB, hexByte, List.cons_append, List.nil_append]
  rw [parseHexByte_hexByte R (by omega), parseHexByte_hexByte G (by omega),
    parseHexByte_hexByte B (by omega)]

/-- Witness for C5 at the colour `(18, 171, 255)`. -/
theorem rgbaToHex_roundtrip_witness :
    rgbaToHex (Color.ofRGB8 18 171 255) = "12ABFF"
    ∧ parseHexRGB (rgbaToHex (Color.ofRGB8 18 171 255)) = some (18, 171, 255) :=
  ⟨by decide, (rgbaToHex_roundtrip 18 171 255 (by decide) (by decide) (by decide)).2⟩

/-! ## Signature-list normalisation -/

theorem sigLoop_foldl (sigs acc : List Signature) :
    sigs.foldl (fun acc s => if s.Equals Signature.zero then acc else [s] ++ acc) acc
      = (sigs.filter (fun s => !s.Equals Signature.zero)).reverse ++ acc := by
  induction sigs generalizing acc with
  | nil => rfl
  | cons s rest ih =>
    rw [List.foldl_cons, ih]
    by_cases h : s.Equals Signature.zero = true
    · simp [h]
    · simp [h]

theorem sigLoop_eq (sigs : List Signature) :
    sigLoop sigs = (sigs.filter (fun s => !s.Equals Signature.zero)).reverse := by
  unfold sigLoop
  rw [sigLoop_foldl, List.append_nil]

theorem filter_all_zero (l : List Signature) (h : ∀ t ∈ l, t = Signature.zero) :
    l.filter (fun s => !s.Equals Signature.zero) = [] := by
  rw [List.filter_eq_nil_iff]
  intro t ht
  simp [Signature.Equals, h t ht]

theorem zero_not_mem_sigLoop (sigs : List Signature) : Signature.zero ∉ sigLoop sigs := by
  rw [sigLoop_eq]
  simp [Signature.Equals]

theorem sigLoop_append_cons (pre post : List Signature) (s : Signature)
    (hs : s ≠ Signature.zero) (hpost : ∀ t ∈ post, t = Signature.zero) :
    sigLoop (pre ++ s :: post) = s :: sigLoop pre := by
  rw [sigLoop_eq, sigLoop_eq, List.filter_append, List.filter_cons,
    filter_all_zero post hpost]
  simp [Signature.Equals, hs]

/-- C6: for a signature list with exactly one non-empty signature `s` and empty
placeholders anywhere before and after it, the loop of `sendTxn` yields exactly `[s]`. -/
theorem sigLoop_single (pre post : List Signature) (s : Signature)
    (hs : s ≠ Signature.zero) (hpre : ∀ t ∈ pre, t = Signature.zero)
    (hpost : ∀ t ∈ post, t = Signature.zero) :
    sigLoop (pre ++ s :: post) = [s] := by
  rw [sigLoop_append_cons pre post s hs hpost, sigLoop_eq, filter_all_zero pre hpre]
  rfl

/-- Witness for C6: placeholders on both sides of the real signature. -/
theorem sigLoop_single_witness :
    sigLoop ([Signature.zero, Signature.zero] ++ Signature.fill 7 :: [Signature.zero])
      = [Signature.fill 7] :=
  sigLoop_single [Signature.zero, Signature.zero] [Signature.zero] (Signature.fill 7)
    (by decide) (by decide) (by decide)

/-- C7 fails as stated: with the Identity's signature `fill 1` followed by another
signer's signature `fill 2`, the loop puts the other signature at index 0. -/
theorem sigLoop_identity_not_first :
    Signature.fill 1 ≠ Signature.zero
    ∧ Signature.fill 1 ∈ [Signature.fill 1, Signature.fill 2]
    ∧ sigLoop [Signature.fill 1, Signature.fill 2] = [Signature.fill 2, Signature.fill 1]
    ∧ (sigLoop [Signature.fill 1, Signature.fill 2]).head? ≠ some (Signature.fill 1) := by
  decide

/-- C7, amended: the loop of `sendTxn` yields the non-empty signatures in reverse order.
The result never contains an empty placeholder, and when the Identity's non-empty
signature is the last non-empty signature of the list (only placeholders follow it), it
is at index 0, followed by the normalisation of the signatures before it. -/
theorem sigLoop_identity_last (pre post : List Signature) (idSig : Signature)
    (hid : idSig ≠ Signature.zero) (hpost : ∀ t ∈ post, t = Signature.zero) :
    (sigLoop (pre ++ idSig :: post)).head? = some idSig
    ∧ Signature.zero ∉ sigLoop (pre ++ idSig :: post)
    ∧ sigLoop (pre ++ idSig :: post) = idSig :: sigLoop pre
    ∧ sigLoop (pre ++ idSig :: post)
        = ((pre ++ idSig :: post).filter (fun s => !s.Equals Signature.zero)).reverse := by
  refine ⟨?_, zero_not_mem_sigLoop _, sigLoop_append_cons pre post idSig hid hpost,
    sigLoop_eq _⟩
  rw [sigLoop_append_cons pre post idSig hid hpost]
  rfl

/-- Witness for C7, amended: another signer first, then a placeholder, then the
Identity's signature, then a placeholder. -/
theorem sigLoop_identity_last_witness :
    (sigLoop ([Signature.fill 2, Signature.zero] ++ Signature.fill 1 :: [Signature.zero])).head?
      = some (Signature.fill 1)
    ∧ sigLoop ([Signature.fill 2, Signature.zero] ++ Signature.fill 1 :: [Signature.zero])
      = [Signature.fill 1, Signature.fill 2] :=
  ⟨(sigLoop_identity_last [Signature.fill 2, Signature.zero] [Signature.zero]
      (Signature.fill 1) (by decide) (by decide)).1, by decide⟩

/-! ## The paint pipeline -/

theorem getsOf_append (a b : List Event) : getsOf (a ++ b) = getsOf a ++ getsOf b := by
  induction a with
  | nil => rfl
  | cons e rest ih => cases e <;> simp [getsOf, ih]

theorem sendTxnCalls_append (a b : List Event) :
    sendTxnCalls (a ++ b) = sendTxnCalls a ++ sendTxnCalls b := by
  induction a with
  | nil => rfl
  | cons e rest ih => cases e <;> simp [sendTxnCalls, ih]

theorem sendsOf_append (a b : List Event) : sendsOf (a ++ b) = sendsOf a ++ sendsOf b := by
  induction a with
  | nil => rfl
  | cons e rest ih => cases e <;> simp [sendsOf, ih]

/-- The function `getTxn` changes nothing but the trace, issues exactly one request and
never enters `sendTxn`. -/
theorem getTxn_frame (E : Extern) (i : ImageFill) (x y : Int) (color : Color) :
    (getTxn E i x y color).2 = { i with trace := (getTxn E i x y color).2.trace }
    ∧ getsOf (getTxn E i x y color).2.trace = getsOf i.trace ++ [mintUri E i x y color]
    ∧ sendTxnCalls (getTxn E i x y color).2.trace = sendTxnCalls i.trace
    ∧ sendsOf (getTxn E i x y color).2.trace = sendsOf i.trace := by
  unfold getTxn
  simp only [ImageFill.emit]
  split
  · simp [getsOf_append, sendTxnCalls_append, sendsOf_append, getsOf, sendTxnCalls, sendsOf,
      mintUri]
  · split
    · simp [getsOf_append, sendTxnCalls_append, sendsOf_append, getsOf, sendTxnCalls, sendsOf,
        mintUri]
    · split
      · simp [getsOf_append, sendTxnCalls_append, sendsOf_append, getsOf, sendTxnCalls,
          sendsOf, mintUri]
      · split
        · simp [getsOf_append, sendTxnCalls_append, sendsOf_append, getsOf, sendTxnCalls,
            sendsOf, mintUri]
        · split <;>
          simp [getsOf_append, sendTxnCalls_append, sendsOf_append, getsOf, sendTxnCalls,
            sendsOf, mintUri]

/-- The function `sendTxn` changes nothing but the trace, issues no request and records
its argument. -/
theorem sendTxn_frame (E : Extern) (i : ImageFill) (tx : String) :
    (sendTxn E i tx).2 = { i with trace := (sendTxn E i tx).2.trace }
    ∧ getsOf (sendTxn E i tx).2.trace = getsOf i.trace
    ∧ sendTxnCalls (sendTxn E i tx).2.trace = sendTxnCalls i.trace ++ [tx] := by
  unfold sendTxn
  simp only [ImageFill.emit]
  split
  · simp [getsOf_append, sendTxnCalls_append, getsOf, sendTxnCalls]
  · split
    · simp [getsOf_append, sendTxnCalls_append, getsOf, sendTxnCalls]
    · split
      · simp [getsOf_append, sendTxnCalls_append, getsOf, sendTxnCalls]
      · split <;> simp [getsOf_append, sendTxnCalls_append, getsOf, sendTxnCalls]

/-- The result of `getTxn` in terms of the answer of the artifact service. -/
theorem getTxn_result (E : Extern) (i : ImageFill) (x y : Int) (color : Color) :
    (getTxn E i (wrapInt (i.startX + x)) (wrapInt (i.startY + y)) color).1
      = match artifactAnswer E i x y color with
        | .error err => ("", some err)
        | .ok resp =>
          if resp.StatusCode = 400 then ("", some "already painted")
          else if resp.StatusCode ≠ 200 then
            ("", some ("get txn failed: " ++ toString resp.StatusCode ++ " - " ++ resp.Status))
          else
            match resp.Body with
            | .error err => ("", some err)
            | .ok data =>
              match E.Unmarshal data with
              | .error err => ("", some err)
              | .ok r => (r.Transaction, none) := by
  unfold getTxn artifactAnswer
  simp only [ImageFill.emit, mintUri]
  split
  · rfl
  · split
    · rfl
    · split
      · rfl
      · split
        · rfl
        · split <;> rfl

/-- When `getTxn` fails, `paint` returns its error and the state it left. -/
theorem paint_of_getTxn_error (E : Extern) (i : ImageFill) (x y : Int) (color : Color)
    (tx : String) (err : Error)
    (h : (getTxn E i (wrapInt (i.startX + x)) (wrapInt (i.startY + y)) color).1
      = (tx, some err)) :
    paint E i x y color
      = (some err, (getTxn E i (wrapInt (i.startX + x)) (wrapInt (i.startY + y)) color).2) := by
  unfold paint
  split
  · rename_i heq
    rw [heq] at h
    simp only [Prod.mk.injEq, Option.some.injEq] at h
    rw [heq, h.2]
  · rename_i heq
    rw [heq] at h
    simp at h

/-- When `getTxn` succeeds with an empty transaction, `paint` fails without entering
`sendTxn`. -/
theorem paint_of_getTxn_empty (E : Extern) (i : ImageFill) (x y : Int) (color : Color)
    (h : (getTxn E i (wrapInt (i.startX + x)) (wrapInt (i.startY + y)) color).1
      = ("", none)) :
    paint E i x y color
      = (some "invalid txn data",
          (getTxn E i (wrapInt (i.startX + x)) (wrapInt (i.startY + y)) color).2) := by
  unfold paint
  split
  · rename_i heq
    rw [heq] at h
    simp at h
  · rename_i heq
    rw [heq] at h
    simp only [Prod.mk.injEq, and_true] at h
    rw [heq, if_pos h]

/-- When `getTxn` succeeds with a non-empty transaction, `paint` returns what `sendTxn`
returns. -/
theorem paint_of_getTxn_ok (E : Extern) (i : ImageFill) (x y : Int) (color : Color)
    (tx : String) (htx : tx ≠ "")
    (h : (getTxn E i (wrapInt (i.startX + x)) (wrapInt (i.startY + y)) color).1
      = (tx, none)) :
    paint E i x y color
      = ((sendTxn E
            (getTxn E i (wrapInt (i.startX + x)) (wrapInt (i.startY + y)) color).2 tx).1.2,
          (sendTxn E
            (getTxn E i (wrapInt (i.startX + x)) (wrapInt (i.startY + y)) color).2 tx).2) := by
  unfold paint
  split
  · rename_i heq
    rw [heq] at h
    simp at h
  · rename_i tx' i1 heq
    rw [heq] at h
    simp only [Prod.mk.injEq, and_true] at h
    subst h
    rw [if_neg htx, heq]
    simp only
    split
    · rename_i h2
      rw [h2]
    · rename_i h2
      rw [h2]
      rfl

/-- What `paint` does to the state, whatever the outcome: only the trace changes, exactly
one request is issued (the artifact request of the job), and `sendTxn` is entered at most
once, with a non-empty argument. -/
theorem paint_frame (E : Extern) (i : ImageFill) (x y : Int) (color : Color) :
    (paint E i x y color).2 = { i with trace := (paint E i x y color).2.trace }
    ∧ getsOf (paint E i x y color).2.trace
        = getsOf i.trace
          ++ [mintUri E i (wrapInt (i.startX + x)) (wrapInt (i.startY + y)) color]
    ∧ (sendTxnCalls (paint E i x y color).2.trace = sendTxnCalls i.trace
        ∨ ∃ tx, tx ≠ "" ∧
          (getTxn E i (wrapInt (i.startX + x)) (wrapInt (i.startY + y)) color).1 = (tx, none)
          ∧ sendTxnCalls (paint E i x y color).2.trace = sendTxnCalls i.trace ++ [tx]) := by
  obtain ⟨hg1, hg2, hg3, _⟩ :=
    getTxn_frame E i (wrapInt (i.startX + x)) (wrapInt (i.startY + y)) color
  rcases hres : (getTxn E i (wrapInt (i.startX + x)) (wrapInt (i.startY + y)) color).1
    with ⟨tx, r⟩
  cases r with
  | some err =>
    rw [paint_of_getTxn_error E i x y color tx err hres]
    exact ⟨hg1, hg2, Or.inl hg3⟩
  | none =>
    by_cases htx : tx = ""
    · subst htx
      rw [paint_of_getTxn_empty E i x y color hres]
      exact ⟨hg1, hg2, Or.inl hg3⟩
    · rw [paint_of_getTxn_ok E i x y color tx htx hres]
      obtain ⟨hs1, hs2, hs3⟩ := sendTxn_frame E
        (getTxn E i (wrapInt (i.startX + x)) (wrapInt (i.startY + y)) color).2 tx
      refine ⟨?_, ?_, Or.inr ⟨tx, htx, rfl, ?_⟩⟩
      · rw [hs1, hg1]
      · simp only [hs2, hg2]
      · simp only [hs3, hg3]

theorem getTxnFailed_ne_alreadyPainted (a : String) :
    "get txn failed: " ++ a ≠ "already painted" := by
  intro h
  have h2 := congrArg String.data h
  rw [String.data_append] at h2
  have h3 : ("get txn failed: ".data ++ a.data).head? = some 'g' := rfl
  rw [h2] at h3
  exact absurd h3 (by decide)

/-- C8: when the artifact service answers the request of a job with status 400, `paint`
fails with the error `already painted` and `sendTxn` is not entered; when it answers with a
status other than 400 and 200, `paint` fails with the error `get txn failed: <code> -
<status>`, which is not `already painted`, and `sendTxn` is not entered either. In both
cases nothing is submitted to the ledger. -/
theorem paint_non200 (E : Extern) (i : ImageFill) (x y : Int) (color : Color)
    (resp : Response) (hresp : artifactAnswer E i x y color = .ok resp) :
    (resp.StatusCode = 400 →
      (paint E i x y color).1 = some "already painted"
      ∧ sendTxnCalls (paint E i x y color).2.trace = sendTxnCalls i.trace
      ∧ sendsOf (paint E i x y color).2.trace = sendsOf i.trace)
    ∧ (resp.StatusCode ≠ 400 → resp.StatusCode ≠ 200 →
      (paint E i x y color).1
        = some ("get txn failed: " ++ toString resp.StatusCode ++ " - " ++ resp.Status)
      ∧ (paint E i x y color).1 ≠ some "already painted"
      ∧ sendTxnCalls (paint E i x y color).2.trace = sendTxnCalls i.trace
      ∧ sendsOf (paint E i x y color).2.trace = sendsOf i.trace) := by
  obtain ⟨_, _, hg3, hg4⟩ :=
    getTxn_frame E i (wrapInt (i.startX + x)) (wrapInt (i.startY + y)) color
  have hres := getTxn_result E i x y color
  rw [hresp] at hres
  simp only at hres
  constructor
  · intro h400
    rw [if_pos h400] at hres
    rw [paint_of_getTxn_error E i x y color _ _ hres]
    exact ⟨rfl, hg3, hg4⟩
  · intro h400 h200
    rw [if_neg h400, if_pos h200] at hres
    rw [paint_of_getTxn_error E i x y color _ _ hres]
    refine ⟨rfl, ?_, hg3, hg4⟩
    intro h
    simp only [Option.some.injEq] at h
    rw [String.append_assoc, String.append_assoc] at h
    exact getTxnFailed_ne_alreadyPainted _ h

/-- Witness for C8: the artifact service answers 400, and answers 503. -/
theorem paint_non200_witness :
    (paint (Extern.sample 400 "" "") ImageFill.sample 0 0 (Color.ofRGB8 0 0 0)).1
      = some "already painted"
    ∧ (paint (Extern.sample 503 "" "") ImageFill.sample 0 0 (Color.ofRGB8 0 0 0)).1
      = some "get txn failed: 503 - status"
    ∧ sendTxnCalls
        (paint (Extern.sample 503 "" "") ImageFill.sample 0 0 (Color.ofRGB8 0 0 0)).2.trace
      = [] :=
  ⟨((paint_non200 (Extern.sample 400 "" "") ImageFill.sample 0 0 (Color.ofRGB8 0 0 0)
      { StatusCode := 400, Status := "status", Body := .ok "" } rfl).1 (by decide)).1,
    ((paint_non200 (Extern.sample 503 "" "") ImageFill.sample 0 0 (Color.ofRGB8 0 0 0)
      { StatusCode := 503, Status := "status", Body := .ok "" } rfl).2
        (by decide) (by decide)).1,
    ((paint_non200 (Extern.sample 503 "" "") ImageFill.sample 0 0 (Color.ofRGB8 0 0 0)
      { StatusCode := 503, Status := "status", Body := .ok "" } rfl).2
        (by decide) (by decide)).2.2.1⟩

/-- C9: when the artifact service answers with status 200 and the body decodes to a
record whose `Transaction` field is empty (an absent field decodes to the empty string),
`paint` fails with `invalid txn data` and `sendTxn` is not entered; and in every run of
`paint`, `sendTxn` is entered at most once and only with a non-empty transaction string. -/
theorem paint_empty_txn (E : Extern) (i : ImageFill) (x y : Int) (color : Color) :
    (∀ (resp : Response) (data : String) (r : TxnResponse),
      artifactAnswer E i x y color = .ok resp → resp.StatusCode = 200 →
      resp.Body = .ok data → E.Unmarshal data = .ok r → r.Transaction = "" →
      (paint E i x y color).1 = some "invalid txn data"
      ∧ sendTxnCalls (paint E i x y color).2.trace = sendTxnCalls i.trace
      ∧ sendsOf (paint E i x y color).2.trace = sendsOf i.trace)
    ∧ (sendTxnCalls (paint E i x y color).2.trace = sendTxnCalls i.trace
        ∨ ∃ tx, tx ≠ "" ∧
          sendTxnCalls (paint E i x y color).2.trace = sendTxnCalls i.trace ++ [tx]) := by
  constructor
  · intro resp data r hresp h200 hbody hjson hempty
    obtain ⟨_, _, hg3, hg4⟩ :=
      getTxn_frame E i (wrapInt (i.startX + x)) (wrapInt (i.startY + y)) color
    have hres := getTxn_result E i x y color
    rw [hresp] at hres
    simp only at hres
    rw [if_neg (by rw [h200]; decide), if_neg (by rw [h200]; decide), hbody] at hres
    simp only at hres
    rw [hjson] at hres
    simp only at hres
    rw [hempty] at hres
    rw [paint_of_getTxn_empty E i x y color hres]
    exact ⟨rfl, hg3, hg4⟩
  · rcases (paint_frame E i x y color).2.2 with h | ⟨tx, htx, _, h⟩
    · exact Or.inl h
    · exact Or.inr ⟨tx, htx, h⟩

/-- Witness for C9: status 200 with a record whose transaction is empty. -/
theorem paint_empty_txn_witness :
    (paint (Extern.sample 200 "body" "") ImageFill.sample 0 0 (Color.ofRGB8 0 0 0)).1
      = some "invalid txn data"
    ∧ sendTxnCalls
        (paint (Extern.sample 200 "body" "") ImageFill.sample 0 0 (Color.ofRGB8 0 0 0)).2.trace
      = [] :=
  ⟨((paint_empty_txn (Extern.sample 200 "body" "") ImageFill.sample 0 0
      (Color.ofRGB8 0 0 0)).1
      { StatusCode := 200, Status := "status", Body := .ok "body" } "body"
      { Transaction := "", Message := "" } rfl rfl rfl rfl rfl).1,
    ((paint_empty_txn (Extern.sample 200 "body" "") ImageFill.sample 0 0
      (Color.ofRGB8 0 0 0)).1
      { StatusCode := 200, Status := "status", Body := .ok "body" } "body"
      { Transaction := "", Message := "" } rfl rfl rfl rfl rfl).2.1⟩

/-- One iteration of `Worker.Run`: `paint`, the log line on failure, `wg.Done`. -/
theorem Worker_Run_cons (E : Extern) (i : ImageFill) (job : Job) (rest : List Job)
    (h : 1 ≤ i.wg) :
    ∃ i1 : ImageFill,
      Worker.Run E i (job :: rest) = Worker.Run E i1 rest
      ∧ i1 = { i with trace := i1.trace, wg := i.wg - 1 }
      ∧ getsOf i1.trace
          = getsOf i.trace
            ++ [mintUri E i (wrapInt (i.startX + job.x)) (wrapInt (i.startY + job.y)) job.c] := by
  obtain ⟨hp1, hp2, _⟩ := paint_frame E i job.x job.y job.c
  rcases hpaint : paint E i job.x job.y job.c with ⟨err, i0⟩
  rw [hpaint] at hp1 hp2
  simp only at hp1 hp2
  have hwg0 : i0.wg = i.wg := by rw [hp1]
  cases err with
  | none =>
    refine ⟨{ i0 with wg := i0.wg - 1 }, ?_, ?_, hp2⟩
    · simp only [Worker.Run, hpaint, wgDone]
      rw [if_neg (by omega)]
    · rw [hp1]
  | some err =>
    refine ⟨{ (i0.emit (Event.log ("Failed paint: "
            ++ toString (wrapInt (i0.startX + job.x)) ++ ","
            ++ toString (wrapInt (i0.startY + job.y)) ++ ": " ++ err))) with
              wg := i0.wg - 1 }, ?_, ?_, ?_⟩
    · simp only [Worker.Run, hpaint, wgDone, ImageFill.emit]
      rw [if_neg (by omega)]
    · simp only [ImageFill.emit]
      rw [hp1]
    · simp only [ImageFill.emit, getsOf_append, getsOf, List.append_nil]
      exact hp2

theorem Worker_Run_general (E : Extern) (jobs : List Job) :
    ∀ i : ImageFill, (jobs.length : Int) ≤ i.wg →
    ∃ i' : ImageFill,
      Worker.Run E i jobs = some i'
      ∧ i' = { i with trace := i'.trace, wg := i.wg - jobs.length }
      ∧ getsOf i'.trace
          = getsOf i.trace ++ jobs.map (fun j =>
              mintUri E i (wrapInt (i.startX + j.x)) (wrapInt (i.startY + j.y)) j.c) := by
  induction jobs with
  | nil =>
    intro i _
    exact ⟨i, rfl, by simp, by simp⟩
  | cons job rest ih =>
    intro i h
    simp only [List.length_cons, Nat.cast_add, Nat.cast_one] at h
    obtain ⟨i1, hrun, hi1, hgets⟩ := Worker_Run_cons E i job rest (by omega)
    have hwg1 : i1.wg = i.wg - 1 := by rw [hi1]
    obtain ⟨i', hrun', hi', hgets'⟩ := ih i1 (by omega)
    refine ⟨i', by rw [hrun, hrun'], ?_, ?_⟩
    · rw [hi', hi1]
      simp only [List.length_cons, Nat.cast_add, Nat.cast_one, ImageFill.mk.injEq, true_and,
        and_true]
      omega
    · rw [hgets', hgets]
      have hw : i1.wallet = i.wallet := by rw [hi1]
      have hx : i1.startX = i.startX := by rw [hi1]
      have hy : i1.startY = i.startY := by rw [hi1]
      simp only [mintUri, hw, hx, hy, List.map_cons, List.append_assoc, List.singleton_append]

/-- C2: a single `Worker.Run` loop that is handed the jobs `jobs` (each of them counted
by `wg.Add(1)` before, so the counter is at least their number) runs to the end without
panic whatever `paint` returns, and leaves the counter decremented by exactly the number
of jobs; it issues exactly one artifact request per job, in the order received, so no
job, failed or not, is painted a second time. -/
theorem Worker_Run_done (E : Extern) (i : ImageFill) (jobs : List Job)
    (h : (jobs.length : Int) ≤ i.wg) :
    ∃ i' : ImageFill,
      Worker.Run E i jobs = some i'
      ∧ i'.wg = i.wg - jobs.length
      ∧ getsOf i'.trace
          = getsOf i.trace ++ jobs.map (fun j =>
              mintUri E i (wrapInt (i.startX + j.x)) (wrapInt (i.startY + j.y)) j.c)
      ∧ i'.successCalls = i.successCalls := by
  obtain ⟨i', hrun, hi', hgets⟩ := Worker_Run_general E jobs i h
  exact ⟨i', hrun, by rw [hi'], hgets, by rw [hi']⟩

/-- Witness for C2: two jobs, the first fails with `already painted`, the counter goes
from 2 to 0. -/
theorem Worker_Run_done_witness :
    ∃ i' : ImageFill,
      Worker.Run (Extern.sample 400 "" "") ImageFill.sample
        [{ x := 0, y := 0, c := Color.ofRGB8 0 0 0 }, { x := 1, y := 0, c := Color.ofRGB8 1 2 3 }]
        = some i'
      ∧ i'.wg = 0 := by
  obtain ⟨i', h1, h2, _⟩ := Worker_Run_done (Extern.sample 400 "" "") ImageFill.sample
    [{ x := 0, y := 0, c := Color.ofRGB8 0 0 0 }, { x := 1, y := 0, c := Color.ofRGB8 1 2 3 }]
    (by decide)
  exact ⟨i', h1, by rw [h2]; decide⟩

/-- C10: `paint` returns `nil` exactly when `getTxn` yields a non-empty transaction and
`sendTxn` succeeds on it. It never reaches `checkSuccess` or `doSuccessCheck`: the list
`successCalls` is left unchanged and the only request issued is the artifact request,
whereas a call of `checkSuccess` would append to `successCalls` and issue a second
request. Hence `successCalls` is unchanged by any run of `Worker.Run`. -/
theorem paint_bypasses_check (E : Extern) (i : ImageFill) (x y : Int) (color : Color) :
    ((paint E i x y color).1 = none ↔
      ∃ tx, tx ≠ ""
        ∧ (getTxn E i (wrapInt (i.startX + x)) (wrapInt (i.startY + y)) color).1 = (tx, none)
        ∧ (sendTxn E
            (getTxn E i (wrapInt (i.startX + x)) (wrapInt (i.startY + y)) color).2 tx).1.2
          = none)
    ∧ (paint E i x y color).2.successCalls = i.successCalls
    ∧ getsOf (paint E i x y color).2.trace
        = getsOf i.trace
          ++ [mintUri E i (wrapInt (i.startX + x)) (wrapInt (i.startY + y)) color]
    ∧ (∀ (sig : Signature) (j : ImageFill),
        (checkSuccess E j x y color sig).2.successCalls
          = j.successCalls ++ [successUri E j x y color sig]
        ∧ getsOf (checkSuccess E j x y color sig).2.trace
          = getsOf j.trace ++ [successUri E j x y color sig])
    ∧ (∀ (jobs : List Job) (i' : ImageFill),
        (jobs.length : Int) ≤ i.wg → Worker.Run E i jobs = some i' →
        i'.successCalls = i.successCalls) := by
  obtain ⟨hp1, hp2, _⟩ := paint_frame E i x y color
  refine ⟨?_, by rw [hp1], hp2, ?_, ?_⟩
  · rcases hres : (getTxn E i (wrapInt (i.startX + x)) (wrapInt (i.startY + y)) color).1
      with ⟨tx, r⟩
    cases r with
    | some err =>
      rw [paint_of_getTxn_error E i x y color tx err hres]
      simp
    | none =>
      by_cases htx : tx = ""
      · subst htx
        rw [paint_of_getTxn_empty E i x y color hres]
        simp only [Prod.mk.injEq, and_true]
        constructor
        · intro h
          exact absurd h (by simp)
        · rintro ⟨t, h1, h2, _⟩
          exact absurd h2.symm h1
      · rw [paint_of_getTxn_ok E i x y color tx htx hres]
        simp only [Prod.mk.injEq, and_true]
        constructor
        · intro h
          exact ⟨tx, htx, rfl, h⟩
        · rintro ⟨t, _, h2, h⟩
          rw [h2]
          exact h
  · intro sig j
    unfold checkSuccess doSuccessCheck
    simp only [ImageFill.emit]
    constructor
    · split
      · rfl
      · split <;> rfl
    · split
      · simp [getsOf_append, getsOf, successUri]
      · split <;> simp [getsOf_append, getsOf, successUri]
  · intro jobs i' hlen hrun
    obtain ⟨i'', hrun', hi', _⟩ := Worker_Run_general E jobs i hlen
    rw [hrun] at hrun'
    simp only [Option.some.injEq] at hrun'
    subst hrun'
    rw [hi']

/-- Witness for C10: a job whose artifact is accepted by the ledger. -/
theorem paint_bypasses_check_witness :
    (paint (Extern.sample 200 "body" "abc") ImageFill.sample 0 0 (Color.ofRGB8 0 0 0)).1 = none
    ∧ (paint (Extern.sample 200 "body" "abc") ImageFill.sample 0 0
        (Color.ofRGB8 0 0 0)).2.successCalls = []
    ∧ getsOf (paint (Extern.sample 200 "body" "abc") ImageFill.sample 0 0
        (Color.ofRGB8 0 0 0)).2.trace
      = ["https://www.onemillionnfts.page/api/mint?x=5&y=10&color=%23000000&pubkey=PUBKEY"] :=
  ⟨by decide,
    (paint_bypasses_check (Extern.sample 200 "body" "abc") ImageFill.sample 0 0
      (Color.ofRGB8 0 0 0)).2.1,
    by decide⟩

/-! ## The dispatcher loop -/

theorem mem_intRange (lo hi v : Int) : v ∈ intRange lo hi ↔ lo ≤ v ∧ v < hi := by
  unfold intRange
  simp only [List.mem_map, List.mem_range]
  constructor
  · rintro ⟨k, hk, rfl⟩
    omega
  · rintro ⟨h1, h2⟩
    exact ⟨(v - lo).toNat, by omega, by omega⟩

theorem nodup_intRange (lo hi : Int) : (intRange lo hi).Nodup := by
  unfold intRange
  apply List.Nodup.map _ (List.nodup_range _)
  intro a b h
  simp only at h
  omega

theorem mem_pixels (img : Image) (j : Job) :
    j ∈ pixels img ↔ img.InBounds j.x j.y ∧ j.c = img.At j.x j.y := by
  unfold pixels Image.InBounds
  simp only [List.mem_flatMap, List.mem_map, mem_intRange]
  constructor
  · rintro ⟨y, hy, x, hx, rfl⟩
    exact ⟨⟨hx.1, hx.2, hy.1, hy.2⟩, rfl⟩
  · rintro ⟨⟨h1, h2, h3, h4⟩, hc⟩
    refine ⟨j.y, ⟨h3, h4⟩, j.x, ⟨h1, h2⟩, ?_⟩
    rw [← hc]

theorem nodup_pixels (img : Image) : (pixels img).Nodup := by
  unfold pixels
  rw [List.nodup_flatMap]
  constructor
  · intro y _
    apply List.Nodup.map _ (nodup_intRange _ _)
    intro a b h
    simp only [Job.mk.injEq] at h
    exact h.1
  · apply List.Pairwise.imp _ (nodup_intRange img.minY img.maxY)
    intro a b hab
    simp only [Function.onFun, List.disjoint_left, List.mem_map]
    rintro j ⟨x, _, rfl⟩ ⟨x', _, h⟩
    simp only [Job.mk.injEq] at h
    exact hab h.2.1.symm

theorem rowLoop_eq (skip : Bool) (img : Image) (y : Int) (sent : List Job) :
    rowLoop skip img y sent
      = sent ++ ((intRange img.minX img.maxX).map
          (fun x => ({ x := x, y := y, c := img.At x y } : Job))).filter
            (fun j => !skipped skip j.c) := by
  unfold rowLoop
  generalize intRange img.minX img.maxX = xs
  induction xs generalizing sent with
  | nil => simp
  | cons x rest ih =>
    rw [List.foldl_cons, ih]
    by_cases h : skipped skip (img.At x y) = true
    · simp [h]
    · simp [h]

theorem mainLoop_eq (skip : Bool) (img : Image) :
    mainLoop skip img = (pixels img).filter (fun j => !skipped skip j.c) := by
  unfold mainLoop pixels
  generalize intRange img.minY img.maxY = ys
  have key : ∀ acc : List Job,
      ys.foldl (fun sent y => rowLoop skip img y sent) acc
        = acc ++ (ys.flatMap fun y => (intRange img.minX img.maxX).map
            fun x => ({ x := x, y := y, c := img.At x y } : Job)).filter
              (fun j => !skipped skip j.c) := by
    induction ys with
    | nil => intro acc; simp
    | cons y rest ih =>
      intro acc
      rw [List.foldl_cons, ih, rowLoop_eq, List.flatMap_cons, List.filter_append,
        List.append_assoc]
  rw [key, List.nil_append]

theorem hexChar_eq_F (d : Nat) (h : d < 16) : hexChar d = 'F' ↔ d = 15 := by
  interval_cases d <;> decide

theorem hexByte_eq_FF (n : Nat) (h : n < 256) : hexByte n = ['F', 'F'] ↔ 255 ≤ n := by
  unfold hexByte
  simp only [List.cons.injEq, and_true]
  rw [hexChar_eq_F _ (by omega), hexChar_eq_F _ (by omega)]
  omega

theorem rgbaToHex_eq_white (c : Color) (hr : c.r ≤ 65535) (hg : c.g ≤ 65535)
    (hb : c.b ≤ 65535) :
    rgbaToHex c = "FFFFFF" ↔ 0xFF00 ≤ c.r ∧ 0xFF00 ≤ c.g ∧ 0xFF00 ≤ c.b := by
  rw [rgbaToHex_bytes c hr hg hb]
  have h1 := shiftRight8_lt _ hr
  have h2 := shiftRight8_lt _ hg
  have h3 := shiftRight8_lt _ hb
  have e1 := hexByte_eq_FF _ h1
  have e2 := hexByte_eq_FF _ h2
  have e3 := hexByte_eq_FF _ h3
  have s1 : c.r >>> 8 = c.r / 256 := by rw [Nat.shiftRight_eq_div_pow]
  have s2 : c.g >>> 8 = c.g / 256 := by rw [Nat.shiftRight_eq_div_pow]
  have s3 : c.b >>> 8 = c.b / 256 := by rw [Nat.shiftRight_eq_div_pow]
  have hw : ("FFFFFF" : String) = String.mk (['F', 'F'] ++ ['F', 'F'] ++ ['F', 'F']) := rfl
  rw [hw, String.ext_iff]
  simp only []
  constructor
  · intro h
    have hh : hexByte (c.r >>> 8) = ['F', 'F'] ∧ hexByte (c.g >>> 8) = ['F', 'F']
        ∧ hexByte (c.b >>> 8) = ['F', 'F'] := by
      simp only [hexByte, List.cons_append, List.nil_append, List.cons.injEq, and_true] at h ⊢
      tauto
    have a1 := e1.1 hh.1
    have a2 := e2.1 hh.2.1
    have a3 := e3.1 hh.2.2
    omega
  · rintro ⟨a1, a2, a3⟩
    rw [e1.2 (by omega), e2.2 (by omega), e3.2 (by omega)]

theorem pureWhite_hex (c : Color) (h : c.isPureWhite) : rgbaToHex c = "FFFFFF" := by
  obtain ⟨h1, h2, h3⟩ := h
  unfold rgbaToHex
  rw [h1, h2, h3]
  decide

/-- C3 fails as stated: the only pixel of `Image.nearWhite` has the 16-bit channels
`0xFF00`, so it is not pure white, yet with the whitespace-skip option enabled the
dispatcher loop sends no job at all. -/
theorem mainLoop_skips_near_white :
    Image.nearWhite.InBounds 0 0
    ∧ ¬ (Image.nearWhite.At 0 0).isPureWhite
    ∧ mainLoop true Image.nearWhite = [] := by
  decide

/-- C3, amended: with the whitespace-skip option enabled, the dispatcher loop sends the
job of a pixel inside the bounds exactly once when `rgbaToHex` of its colour is not
`FFFFFF`, and never otherwise; every job sent belongs to such a pixel. For channels in
`0..65535` the encoding is `FFFFFF` exactly when the red, green and blue channels are all
at least `0xFF00`; in particular a pure white pixel is never sent, and a pixel with a
channel below `0xFF00` is sent exactly once. -/
theorem mainLoop_skip_policy (img : Image) (x y : Int) (h : img.InBounds x y) :
    List.count ({ x := x, y := y, c := img.At x y } : Job) (mainLoop true img)
      = (if rgbaToHex (img.At x y) = "FFFFFF" then 0 else 1)
    ∧ (∀ j ∈ mainLoop true img,
        img.InBounds j.x j.y ∧ j.c = img.At j.x j.y ∧ rgbaToHex j.c ≠ "FFFFFF"
        ∧ ¬ j.c.isPureWhite)
    ∧ ((img.At x y).isPureWhite →
        ({ x := x, y := y, c := img.At x y } : Job) ∉ mainLoop true img)
    ∧ ((img.At x y).r ≤ 65535 → (img.At x y).g ≤ 65535 → (img.At x y).b ≤ 65535 →
        (({ x := x, y := y, c := img.At x y } : Job) ∈ mainLoop true img
          ↔ ¬ (0xFF00 ≤ (img.At x y).r ∧ 0xFF00 ≤ (img.At x y).g
              ∧ 0xFF00 ≤ (img.At x y).b))) := by
  have hmem : ({ x := x, y := y, c := img.At x y } : Job) ∈ pixels img :=
    (mem_pixels img _).2 ⟨h, rfl⟩
  have hin : ∀ j : Job, j ∈ mainLoop true img
      ↔ j ∈ pixels img ∧ rgbaToHex j.c ≠ "FFFFFF" := by
    intro j
    rw [mainLoop_eq, List.mem_filter]
    simp [skipped]
  refine ⟨?_, ?_, ?_, ?_⟩
  · rw [mainLoop_eq]
    by_cases hw : rgbaToHex (img.At x y) = "FFFFFF"
    · rw [if_pos hw, List.count_eq_zero]
      intro hm
      rw [List.mem_filter] at hm
      simp [skipped, hw] at hm
    · rw [if_neg hw]
      apply List.count_eq_one_of_mem ((nodup_pixels img).filter _)
      rw [List.mem_filter]
      exact ⟨hmem, by simp [skipped, hw]⟩
  · intro j hj
    obtain ⟨hp, hw⟩ := (hin j).1 hj
    obtain ⟨hb, hc⟩ := (mem_pixels img j).1 hp
    exact ⟨hb, hc, hw, fun hpw => hw (pureWhite_hex _ hpw)⟩
  · intro hpw hm
    exact ((hin _).1 hm).2 (pureWhite_hex _ hpw)
  · intro hr hg hb
    rw [hin, ← rgbaToHex_eq_white _ hr hg hb]
    exact ⟨fun hm => hm.2, fun hw => ⟨hmem, hw⟩⟩

/-- Witness for C3, amended: the 2×1 image (black, white) yields the single job of the
black pixel. -/
theorem mainLoop_skip_policy_witness :
    mainLoop true Image.blackWhite = [{ x := 0, y := 0, c := Color.ofRGB8 0 0 0 }]
    ∧ List.count ({ x := 0, y := 0, c := Image.blackWhite.At 0 0 } : Job)
        (mainLoop true Image.blackWhite) = 1
    ∧ List.count ({ x := 1, y := 0, c := Image.blackWhite.At 1 0 } : Job)
        (mainLoop true Image.blackWhite) = 0 :=
  ⟨by decide,
    (mainLoop_skip_policy Image.blackWhite 0 0 (by decide)).1,
    (mainLoop_skip_policy Image.blackWhite 1 0 (by decide)).1⟩

/-! ## The worker pool -/

theorem reachable_of_run (skip : Bool) (img : Image) (n : Nat) (acts : List Action) :
    ∀ s t : Pool, Reachable skip img n s → s.run acts = some t → Reachable skip img n t := by
  induction acts with
  | nil =>
    intro s t hs hrun
    simp only [Pool.run, Option.some.injEq] at hrun
    exact hrun ▸ hs
  | cons a rest ih =>
    intro s t hs hrun
    simp only [Pool.run] at hrun
    cases hstep : s.step a with
    | none => rw [hstep] at hrun; simp at hrun
    | some u =>
      rw [hstep] at hrun
      exact ih u t (Reachable.step a hs hstep) hrun

theorem inflightFrom_set_paint (j : Job) :
    ∀ (ws : List WorkerPC) (b k : Nat), ws.get? k = some WorkerPC.recv →
      (inflightFrom b (ws.set k (WorkerPC.paint j))).Perm ((b + k, j) :: inflightFrom b ws) := by
  intro ws
  induction ws with
  | nil => intro b k h; simp at h
  | cons w rest ih =>
    intro b k h
    cases k with
    | zero =>
      simp only [List.get?_cons_zero, Option.some.injEq] at h
      subst h
      simp only [List.set_cons_zero, inflightFrom, Nat.add_zero]
      exact List.Perm.refl _
    | succ k =>
      simp only [List.get?_cons_succ] at h
      have h2 := ih (b + 1) k h
      have e : b + 1 + k = b + (k + 1) := by omega
      rw [e] at h2
      cases w with
      | recv => simpa only [List.set_cons_succ, inflightFrom] using h2
      | exit => simpa only [List.set_cons_succ, inflightFrom] using h2
      | paint j' =>
        simp only [List.set_cons_succ, inflightFrom]
        exact (List.Perm.cons _ h2).trans (List.Perm.swap _ _ _)

theorem inflightFrom_set_recv (j : Job) :
    ∀ (ws : List WorkerPC) (b k : Nat), ws.get? k = some (WorkerPC.paint j) →
      (inflightFrom b ws).Perm ((b + k, j) :: inflightFrom b (ws.set k WorkerPC.recv)) := by
  intro ws
  induction ws with
  | nil => intro b k h; simp at h
  | cons w rest ih =>
    intro b k h
    cases k with
    | zero =>
      simp only [List.get?_cons_zero, Option.some.injEq] at h
      subst h
      simp only [List.set_cons_zero, inflightFrom, Nat.add_zero]
      exact List.Perm.refl _
    | succ k =>
      simp only [List.get?_cons_succ] at h
      have h2 := ih (b + 1) k h
      have e : b + 1 + k = b + (k + 1) := by omega
      rw [e] at h2
      cases w with
      | recv => simpa only [List.set_cons_succ, inflightFrom] using h2
      | exit => simpa only [List.set_cons_succ, inflightFrom] using h2
      | paint j' =>
        simp only [List.set_cons_succ, inflightFrom]
        exact (List.Perm.cons _ h2).trans (List.Perm.swap _ _ _)

theorem inflightFrom_set_exit :
    ∀ (ws : List WorkerPC) (b k : Nat), ws.get? k = some WorkerPC.recv →
      inflightFrom b (ws.set k WorkerPC.exit) = inflightFrom b ws := by
  intro ws
  induction ws with
  | nil => intro b k h; simp at h
  | cons w rest ih =>
    intro b k h
    cases k with
    | zero =>
      simp only [List.get?_cons_zero, Option.some.injEq] at h
      subst h
      simp only [List.set_cons_zero, inflightFrom]
    | succ k =>
      simp only [List.get?_cons_succ] at h
      have h2 := ih (b + 1) k h
      cases w <;> simp only [List.set_cons_succ, inflightFrom, h2]

theorem inflightFrom_replicate (n b : Nat) :
    inflightFrom b (List.replicate n WorkerPC.recv) = [] := by
  induction n generalizing b with
  | zero => rfl
  | succ n ih => simp only [List.replicate_succ, inflightFrom, ih]

theorem inv_init (skip : Bool) (img : Image) (n : Nat) :
    (Pool.init skip img n).Inv skip img := by
  unfold Pool.Inv Pool.init Pool.inflight
  simp only [inflightFrom_replicate, MainPC.awaiting, mainLoop_eq]
  simp

theorem inv_step (skip : Bool) (img : Image) (s t : Pool) (a : Action)
    (hinv : s.Inv skip img) (hstep : s.step a = some t) : t.Inv skip img := by
  obtain ⟨hskip, hpanic, hwg, hsent, hperm, hloop, hclosed⟩ := hinv
  unfold Pool.step at hstep
  rw [hpanic] at hstep
  simp only [Bool.false_eq_true, if_false] at hstep
  cases a with
  | next =>
    simp only at hstep
    split at hstep
    · rename_i p rest hmain htodo
      have hcl : s.closed ≠ true := by
        intro hc
        have := (hclosed hc).1
        rw [htodo] at this
        simp at this
      rw [hmain] at hwg hloop
      rw [htodo] at hloop
      split at hstep
      · rename_i hsk
        simp only [Option.some.injEq] at hstep
        subst hstep
        rw [hskip] at hsk
        refine ⟨hskip, rfl, ?_, hsent, hperm, ?_, ?_⟩
        · simpa only [hmain] using hwg
        · simpa only [hmain, List.filter_cons, hsk, Bool.not_true, Bool.false_eq_true,
            if_false] using hloop
        · intro hc
          exact absurd hc hcl
      · rename_i hsk
        simp only [Option.some.injEq] at hstep
        subst hstep
        rw [hskip] at hsk
        refine ⟨hskip, rfl, ?_, hsent, hperm, ?_, ?_⟩
        · simp only [MainPC.awaiting, Pool.inflight, List.length_nil, List.length_cons] at hwg ⊢
          rw [hwg]
          push_cast
          ring
        · simp only [MainPC.awaiting, List.filter_cons, hsk, Bool.not_false, if_true,
            List.append_nil] at hloop ⊢
          simpa using hloop
        · intro hc
          exact absurd hc hcl
    · simp at hstep
  | send =>
    simp only at hstep
    split at hstep
    · rename_i j hmain
      have hcl : s.closed ≠ true := by
        intro hc
        have := (hclosed hc).2
        rw [hmain] at this
        simp [MainPC.awaiting] at this
      rw [hmain] at hwg hloop
      split at hstep
      · simp only [Option.some.injEq] at hstep
        subst hstep
        refine ⟨hskip, rfl, ?_, ?_, hperm, ?_, ?_⟩
        · simp only [MainPC.awaiting, Pool.inflight, List.length_nil, List.length_cons,
            List.length_append] at hwg ⊢
          rw [hwg]
          push_cast
          ring
        · simp only [hsent, List.append_assoc]
        · simpa only [MainPC.awaiting, List.append_nil, List.append_assoc] using hloop
        · intro hc
          exact absurd hc hcl
      · simp at hstep
    · simp at hstep
  | close =>
    simp only at hstep
    split at hstep
    · rename_i hmain htodo
      simp only [Option.some.injEq] at hstep
      subst hstep
      rw [hmain] at hwg hloop
      refine ⟨hskip, rfl, hwg, hsent, hperm, hloop, ?_⟩
      intro _
      exact ⟨htodo, rfl⟩
    · simp at hstep
  | waitReturn =>
    simp only at hstep
    split at hstep
    · rename_i hmain
      split at hstep
      · simp only [Option.some.injEq] at hstep
        subst hstep
        rw [hmain] at hwg hloop hclosed
        exact ⟨hskip, rfl, hwg, hsent, hperm, hloop, hclosed⟩
      · simp at hstep
    · simp at hstep
  | recv k =>
    simp only at hstep
    split at hstep
    · rename_i hk
      split at hstep
      · rename_i j rest hjobs
        simp only [Option.some.injEq] at hstep
        subst hstep
        have hp := inflightFrom_set_paint j s.workers 0 k hk
        rw [Nat.zero_add] at hp
        rw [hjobs] at hwg hsent
        refine ⟨hskip, rfl, ?_, ?_, ?_, hloop, hclosed⟩
        · simp only [Pool.inflight, List.length_cons, hp.length_eq] at hwg ⊢
          rw [hwg]
          push_cast
          ring
        · simp only [hsent, List.map_append, List.map_cons, List.map_nil, List.append_assoc,
            List.singleton_append]
        · simp only [Pool.inflight] at hperm ⊢
          refine ((List.Perm.append_left _ hp).trans ?_).trans
            (List.perm_append_singleton _ _).symm
          exact List.perm_middle.trans (List.Perm.cons _ hperm)
      · split at hstep
        · simp only [Option.some.injEq] at hstep
          subst hstep
          have he := inflightFrom_set_exit s.workers 0 k hk
          refine ⟨hskip, rfl, ?_, hsent, ?_, hloop, hclosed⟩
          · simpa only [Pool.inflight, he] using hwg
          · simpa only [Pool.inflight, he] using hperm
        · simp at hstep
    · simp at hstep
  | done k err =>
    simp only at hstep
    split at hstep
    · rename_i j hk
      simp only [Option.some.injEq] at hstep
      subst hstep
      have hp := inflightFrom_set_recv j s.workers 0 k hk
      rw [Nat.zero_add] at hp
      have hlen := hp.length_eq
      simp only [List.length_cons] at hlen
      refine ⟨hskip, ?_, ?_, hsent, ?_, hloop, hclosed⟩
      · simp only [Pool.inflight, hlen] at hwg
        simp only [decide_eq_false_iff_not, not_lt]
        rw [hwg]
        push_cast
        omega
      · simp only [Pool.inflight, hlen] at hwg ⊢
        rw [hwg]
        push_cast
        ring
      · simp only [Pool.inflight, List.map_append, List.map_cons, List.map_nil,
          List.append_assoc, List.singleton_append] at hperm ⊢
        exact (List.Perm.append_left _ hp).symm.trans hperm
    · simp at hstep

theorem inv_reachable (skip : Bool) (img : Image) (n : Nat) (s : Pool)
    (h : Reachable skip img n s) : s.Inv skip img := by
  induction h with
  | init => exact inv_init skip img n
  | step a _ hstep ih => exact inv_step skip img _ _ a ih hstep

/-- C1: in every state reachable by the goroutine of `main` and any number of
`Worker.Run` goroutines, the `WaitGroup` counter equals the number of jobs awaiting their
send plus the jobs in the channel plus the jobs in flight; it is never negative and
`wg.Done` never panics; the jobs sent are exactly the jobs received (each receive by one
worker) followed by the jobs still in the channel; and the receives are exactly the
finished jobs together with the jobs in flight. Consequently, once the channel is closed
and the counter is 0, the channel is empty, no job is in flight, every job of the
dispatcher loop has been sent, received once and finished, and the number of `wg.Done`
calls equals the number of jobs sent. -/
theorem pool_invariant (skip : Bool) (img : Image) (n : Nat) (s : Pool)
    (h : Reachable skip img n s) :
    s.wg = ((s.main.awaiting.length + s.jobs.length + s.inflight.length : Nat) : Int)
    ∧ 0 ≤ s.wg
    ∧ s.panicked = false
    ∧ s.sent = s.received.map Prod.snd ++ s.jobs
    ∧ (s.finished.map (fun f => (f.1, f.2.1)) ++ s.inflight).Perm s.received
    ∧ (s.closed = true → s.wg = 0 →
        s.jobs = [] ∧ s.inflight = []
        ∧ s.sent = mainLoop skip img
        ∧ s.received.map Prod.snd = s.sent
        ∧ (s.finished.map (fun f => (f.1, f.2.1))).Perm s.received
        ∧ s.finished.length = s.sent.length) := by
  obtain ⟨_, hpanic, hwg, hsent, hperm, hloop, hclosed⟩ := inv_reachable skip img n s h
  refine ⟨hwg, by rw [hwg]; exact Int.natCast_nonneg _, hpanic, hsent, hperm, ?_⟩
  intro hc hzero
  obtain ⟨htodo, hawait⟩ := hclosed hc
  rw [hzero] at hwg
  have hsum : s.main.awaiting.length + s.jobs.length + s.inflight.length = 0 := by
    exact_mod_cast hwg.symm
  have hjobs : s.jobs = [] := List.length_eq_zero.1 (by omega)
  have hfl : s.inflight = [] := List.length_eq_zero.1 (by omega)
  rw [hjobs, List.append_nil] at hsent
  rw [hfl, List.append_nil] at hperm
  rw [htodo, hawait] at hloop
  simp only [List.filter_nil, List.append_nil] at hloop
  refine ⟨hjobs, hfl, hloop.symm, hsent.symm, hperm, ?_⟩
  have h1 := hperm.length_eq
  rw [List.length_map] at h1
  rw [h1, hsent, List.length_map]

/-- Witness for C1: the schedule `Action.sampleSchedule` on the image (black, white) with
two workers ends with the channel closed and the counter at 0; the single job sent was
received by worker 1 and finished. -/
theorem pool_invariant_witness :
    (Pool.init true Image.blackWhite 2).run Action.sampleSchedule = some Pool.sampleFinal
    ∧ Pool.sampleFinal.closed = true
    ∧ Pool.sampleFinal.wg = 0
    ∧ Pool.sampleFinal.sent = [{ x := 0, y := 0, c := Color.ofRGB8 0 0 0 }]
    ∧ Pool.sampleFinal.received = [(1, { x := 0, y := 0, c := Color.ofRGB8 0 0 0 })]
    ∧ Pool.sampleFinal.finished.length = Pool.sampleFinal.sent.length :=
  ⟨by decide, by decide, by decide, by decide, by decide,
    ((pool_invariant true Image.blackWhite 2 Pool.sampleFinal
      (reachable_of_run true Image.blackWhite 2 Action.sampleSchedule _ _ Reachable.init
        (by decide))).2.2.2.2.2 (by decide) (by decide)).2.2.2.2.2⟩

end OneMillion
